import Mathlib

/-!
# Verification of the cs2-demo-analyzer attribution-and-discovery pipeline

Shallow embedding of the core Python modules of `cs2-demo-analyzer`:

* `src/team_identification.py` — cross-match team identity resolution and
  per-round side attribution (`identify_common_team`, `identify_all_teams`,
  `determine_team_side_for_round`);
* `src/strats/features.py` — per-round strategic feature extraction and the
  batch-level feature matrix (`extract_strategy_features`,
  `build_feature_matrix`, `positions_to_grid`);
* `src/strats/clustering.py` — feature standardization, DBSCAN clustering and
  the cluster-label merge-back (`cluster_strategies`, `discover_strategies`);
* `src/strats/analysis.py` — per-cluster aggregate statistics
  (`analyze_strategy_clusters`).

Modelling conventions:

* Pandas `DataFrame`s become Lean lists of structure values (one structure per
  row schema).  The extractors in `src/extractors/` emit fixed schemas, so a
  column is "present" exactly when the table is nonempty; where the original
  code tests column presence (`'x' in df.columns`), the embedding tests the
  corresponding structural fact and the mapping is noted at the definition.
* Python floats become `ℚ` (exact rationals).  The two float thresholds
  `count >= len * 0.6` become `3 * len ≤ 5 * count`, which is equivalent on
  every in-range integer pair (`0.6` is below `3/5` by less than `2⁻⁵³`
  relatively, and `3·len/5` is never within that distance of an integer
  unless it is one, in which case IEEE rounding of `len * 0.6` still
  compares identically for integer counts).
* Euclidean distances are compared in squared form, which is exact over `ℚ`
  and equivalent to the float comparison `dist ≤ eps` for `eps ≥ 0`.
* `None` / missing values become `Option`.
-/

/-! ## Round side attribution (`src/team_identification.py:227-282`) -/

/-- One per-tick observation from `demo.ticks`: round number, player name and
(possibly missing) side string.  Mirrors the columns `round_num`, `name`,
`side` used by `determine_team_side_for_round`. -/
structure Tick where
  round_num : Nat
  name : String
  side : Option String
deriving DecidableEq, Repr

/-- Python `str.upper` restricted to ASCII, written by structural recursion
over the character list so that it evaluates inside the kernel (the sides in
this code base are the ASCII strings `'t' / 'ct' / 'T' / 'CT'`). -/
def strUpper (s : String) : String :=
  String.mk (s.toList.map Char.toUpper)

/-- `player_sides` of `determine_team_side_for_round`
(`team_identification.py:255-262`): for each team player (in enumeration
order), the first non-missing side observed in the round, uppercased.
`sides = player_ticks['side'].dropna().unique(); sides[0]` is the first
non-null side in tick order, which `filterMap …|>.head?` computes. -/
def playerSides (roundTicks : List Tick) (teamPlayers : List String) :
    List (String × String) :=
  teamPlayers.filterMap fun p =>
    let pticks := roundTicks.filter fun t => t.name == p
    ((pticks.filterMap (·.side)).head?).map fun s => (p, strUpper s)

/-- Side-count tally of `team_identification.py:267-271`: number of observed
team players whose recorded side equals `s` (only `'T'` and `'CT'` are ever
tallied by the source). -/
def sideCount (ps : List (String × String)) (s : String) : Nat :=
  (ps.filter fun pr => pr.2 == s).length

/-- `determine_team_side_for_round` (`team_identification.py:227-282`).
`ticks? = none` models a demo object without the `ticks` attribute.  The
function restricts ticks to the round, collects each team player's first
observed side, and returns the majority side, the first observed player's
side on a tie, or `none`. -/
def determine_team_side_for_round (ticks? : Option (List Tick))
    (round_num : Nat) (teamPlayers : List String) : Option String :=
  match ticks? with
  | none => none
  | some ticks =>
    let roundTicks := ticks.filter fun t => t.round_num == round_num
    if roundTicks.isEmpty then none
    else
      let ps := playerSides roundTicks teamPlayers
      if ps.isEmpty then none
      else
        let tC := sideCount ps "T"
        let ctC := sideCount ps "CT"
        if ctC < tC then some "T"
        else if tC < ctC then some "CT"
        else if 0 < tC then (ps.head?).map (·.2)
        else none

/-! ## Theorems for claim C2 -/

/-- Claim C2: `determine_team_side_for_round` is total (never raises), returns
`none` on missing tick data and when no team player has an observation in the
round, returns the majority side of the team's observed players, and on an
exact tie returns the side of the first-enumerated observed team player. -/
theorem c2_round_side_attribution (ticks : List Tick) (round_num : Nat)
    (teamPlayers : List String) :
    (determine_team_side_for_round none round_num teamPlayers = none) ∧
    (playerSides (ticks.filter fun t => t.round_num == round_num) teamPlayers = [] →
      determine_team_side_for_round (some ticks) round_num teamPlayers = none) ∧
    (∀ ps, ps = playerSides (ticks.filter fun t => t.round_num == round_num) teamPlayers →
      (sideCount ps "CT" < sideCount ps "T" →
        determine_team_side_for_round (some ticks) round_num teamPlayers = some "T") ∧
      (sideCount ps "T" < sideCount ps "CT" →
        determine_team_side_for_round (some ticks) round_num teamPlayers = some "CT") ∧
      (sideCount ps "T" = sideCount ps "CT" → 0 < sideCount ps "T" →
        determine_team_side_for_round (some ticks) round_num teamPlayers =
          (ps.head?).map (·.2)) ∧
      (sideCount ps "T" = 0 → sideCount ps "CT" = 0 →
        determine_team_side_for_round (some ticks) round_num teamPlayers = none)) := by
  refine ⟨rfl, ?_, ?_⟩
  · intro h
    unfold determine_team_side_for_round
    simp only [h]
    by_cases he : (ticks.filter fun t => t.round_num == round_num).isEmpty <;> simp [he]
  · intro ps hps
    have hne : ps ≠ [] → ¬ (ticks.filter fun t => t.round_num == round_num).isEmpty := by
      intro hpsne hempty
      rw [List.isEmpty_iff] at hempty
      rw [hps, hempty] at hpsne
      simp [playerSides] at hpsne
    refine ⟨?_, ?_, ?_, ?_⟩
    · intro hlt
      have hp : ps ≠ [] := by
        intro h0
        rw [h0] at hlt; simp [sideCount] at hlt
      unfold determine_team_side_for_round
      simp only [hne hp, if_false, ← hps]
      have : ¬ ps.isEmpty := by simpa [List.isEmpty_iff] using hp
      simp [this, hlt]
    · intro hlt
      have hp : ps ≠ [] := by
        intro h0
        rw [h0] at hlt; simp [sideCount] at hlt
      unfold determine_team_side_for_round
      simp only [hne hp, if_false, ← hps]
      have hnlt : ¬ sideCount ps "CT" < sideCount ps "T" := by omega
      have : ¬ ps.isEmpty := by simpa [List.isEmpty_iff] using hp
      simp [this, hlt, hnlt]
    · intro heq hpos
      have hp : ps ≠ [] := by
        intro h0
        rw [h0] at hpos; simp [sideCount] at hpos
      unfold determine_team_side_for_round
      simp only [hne hp, if_false, ← hps]
      have h1 : ¬ sideCount ps "CT" < sideCount ps "T" := by omega
      have h2 : ¬ sideCount ps "T" < sideCount ps "CT" := by omega
      have : ¬ ps.isEmpty := by simpa [List.isEmpty_iff] using hp
      simp [this, h1, h2, hpos]
    · intro hT hCT
      unfold determine_team_side_for_round
      by_cases hempty : (ticks.filter fun t => t.round_num == round_num).isEmpty
      · simp [hempty]
      · simp only [hempty, if_false, ← hps]
        by_cases hpe : ps.isEmpty
        · simp [hpe]
        · have h1 : ¬ sideCount ps "CT" < sideCount ps "T" := by omega
          have h2 : ¬ sideCount ps "T" < sideCount ps "CT" := by omega
          simp [hpe, h1, h2, hT, hCT]

/-- Witness for C2 at a concrete input: two players on `T`, one on `CT`
(majority `T`); the no-observation and tie clauses are also discharged on
concrete data. -/
theorem c2_round_side_attribution_witness :
    determine_team_side_for_round
      (some [⟨1, "alice", some "t"⟩, ⟨1, "bob", some "T"⟩, ⟨1, "carol", some "CT"⟩])
      1 ["alice", "bob", "carol"] = some "T" := by
  have h := c2_round_side_attribution
      [⟨1, "alice", some "t"⟩, ⟨1, "bob", some "T"⟩, ⟨1, "carol", some "CT"⟩]
      1 ["alice", "bob", "carol"]
  exact (h.2.2 _ rfl).1 (by decide)

/-! ## Team identification (`src/team_identification.py:20-224`)

The demo-parsing loop (awpy `Demo(...)`, `demo.parse()`) is external I/O; its
product per successfully parsed demo is the pair of first-round rosters
`t_players` / `ct_players` (`team_identification.py:59-69` and `153-169`).
The embedding starts from that product: a `DemoComp` per parsed demo, in the
order of `demo_paths`, plus the length of the original `demo_paths` list
(paths that do not exist or fail to parse are skipped by the source, so the
two can differ). -/

/-- First-round rosters of one successfully parsed demo: the unique player
names observed on the T side and on the CT side. -/
structure DemoComp where
  tP : Finset String
  ctP : Finset String
deriving DecidableEq

/-- Snapshot list of `identify_common_team` (`team_identification.py:59-69`):
per demo, the T roster then the CT roster, each kept only when it has at
least 4 players (the literal `4` is hard-coded at lines 66 and 68), tagged
with its side string exactly as the source stores `(side, players)` pairs. -/
def commonSnapshots (demos : List DemoComp) : List (String × Finset String) :=
  demos.flatMap fun d =>
    (if 4 ≤ d.tP.card then [("T", d.tP)] else []) ++
    (if 4 ≤ d.ctP.card then [("CT", d.ctP)] else [])

/-- Each element of a list paired with the list of all other elements
(`for j, … in enumerate(…): if i != j`).  The complement's order differs
from the source's scan order, but every quantity the source derives from it
(`overlap_count`, the per-player overlap counter) is order-independent. -/
def pickEach {α : Type} : List α → List (α × List α)
  | [] => []
  | x :: xs => (x, xs) :: (pickEach xs).map fun p => (p.1, x :: p.2)

/-- `overlap_count` of `team_identification.py:84-93`: the number of other
snapshots whose roster overlaps `t` in at least `minP` players. -/
def overlapCount (t : Finset String) (others : List (String × Finset String))
    (minP : Nat) : Nat :=
  others.countP fun o => minP ≤ (t ∩ o.2).card

/-- `total_overlap_players[p]` of `team_identification.py:86-93`: the number
of qualifying pairwise overlaps that contain player `p`. -/
def playerOverlapCount (t : Finset String) (others : List (String × Finset String))
    (minP : Nat) (p : String) : Nat :=
  others.countP fun o => minP ≤ (t ∩ o.2).card ∧ p ∈ t ∩ o.2

/-- `consistent_players` of `team_identification.py:98-99`: players of `t`
that occur in at least `len(demo_paths) * 0.6` qualifying overlaps.  The
float comparison `count >= len(demo_paths) * 0.6` is `3 * numPaths ≤ 5 *
count`; membership in the `Counter` additionally requires `0 < count`. -/
def consistentPlayers (t : Finset String) (others : List (String × Finset String))
    (minP numPaths : Nat) : Finset String :=
  t.filter fun p =>
    0 < playerOverlapCount t others minP p ∧
    3 * numPaths ≤ 5 * playerOverlapCount t others minP p

/-- One entry of `team_overlap_scores` (`team_identification.py:95-100`). -/
structure TeamScore where
  team : Finset String
  overlap_count : Nat
  consistent_players : Finset String
deriving DecidableEq

/-- `team_overlap_scores` (`team_identification.py:82-100`): each snapshot
scored against all others. -/
def teamOverlapScores (comps : List (String × Finset String)) (minP numPaths : Nat) :
    List TeamScore :=
  (pickEach comps).map fun pr =>
    { team := pr.1.2
      overlap_count := overlapCount pr.1.2 pr.2 minP
      consistent_players := consistentPlayers pr.1.2 pr.2 minP numPaths }

/-- The sort key `(overlap_count, len(team))` of `team_identification.py:104`,
as a lexicographically ordered pair. -/
def scoreKey (s : TeamScore) : Nat ×ₗ Nat :=
  toLex (s.overlap_count, s.team.card)

/-- Python `max(xs, key=…)` returns the first element attaining the maximum:
a left fold that replaces the accumulator only on strict increase. -/
def maxByFirst (head : TeamScore) (rest : List TeamScore) : TeamScore :=
  rest.foldl (fun a b => if scoreKey a < scoreKey b then b else a) head

/-- `identify_common_team` (`team_identification.py:20-112`), from the parsed
compositions.  `numPaths` is `len(demo_paths)`; `demos` are the successfully
parsed demos in path order. -/
def identify_common_team (demos : List DemoComp) (numPaths minP : Nat) :
    Finset String :=
  if numPaths = 0 then ∅
  else
    match teamOverlapScores (commonSnapshots demos) minP numPaths with
    | [] => ∅
    | s :: rest =>
      let best := maxByFirst s rest
      if best.consistent_players.Nonempty ∧ minP ≤ best.consistent_players.card then
        best.consistent_players
      else if minP ≤ best.team.card then best.team
      else ∅

/-! ### `identify_all_teams` (`team_identification.py:115-224`) -/

/-- One group of `team_groups` (`team_identification.py:189-193`): the member
rosters, the set of demo paths they came from, and the union of players. -/
structure TeamGroup where
  teams : List (Finset String)
  demos : Finset String
  all_players : Finset String
deriving DecidableEq

/-- Snapshot list of `identify_all_teams` (`team_identification.py:153-169`):
per demo, `(demo path, roster)` for the T then the CT roster, each kept when
it has at least `minP` players. -/
def allSnapshots (demos : List (String × DemoComp)) (minP : Nat) :
    List (String × Finset String) :=
  demos.flatMap fun d =>
    (if minP ≤ d.2.tP.card then [(d.1, d.2.tP)] else []) ++
    (if minP ≤ d.2.ctP.card then [(d.1, d.2.ctP)] else [])

/-- The grouping loop of `team_identification.py:180-207`.  The first unused
snapshot seeds a group; every later unused snapshot `comp_j` joins that group
iff `len(comp_i['team'] & comp_j['team']) >= min_players` — the overlap test
is against the seed `comp_i` only, never against later members.  Snapshots
taken by a group are marked used (removed from the pool); the next seed is
the next unused snapshot. -/
def groupSnapshotsAux (minP : Nat) : Nat → List (String × Finset String) → List TeamGroup
  | _, [] => []
  | 0, _ :: _ => []
  | fuel + 1, s :: rest =>
    let taken := rest.filter fun x => minP ≤ (s.2 ∩ x.2).card
    let leftover := rest.filter fun x => ¬ minP ≤ (s.2 ∩ x.2).card
    { teams := s.2 :: taken.map (·.2)
      demos := insert s.1 (taken.map (·.1)).toFinset
      all_players := taken.foldl (fun acc x => acc ∪ x.2) s.2 } ::
    groupSnapshotsAux minP fuel leftover

/-- Entry point of the grouping loop.  The fuel is the pool length; each step
consumes the seed and filters the pool, so `leftover.length ≤ rest.length`
and the fuel is never exhausted (the `0, _ :: _` branch is unreachable). -/
def groupSnapshots (minP : Nat) (comps : List (String × Finset String)) :
    List TeamGroup :=
  groupSnapshotsAux minP comps.length comps

/-- Number of member rosters of the group containing player `p`
(`player_counts[p]`, `team_identification.py:212-214`). -/
def groupPlayerCount (g : TeamGroup) (p : String) : Nat :=
  g.teams.countP fun t => p ∈ t

/-- `consistent_players` of a group (`team_identification.py:216-219`):
players appearing in at least `len(team_group['demos']) * 0.6` of the group's
rosters (`3 * |demos| ≤ 5 * count`, with `Counter` membership `0 < count`). -/
def groupConsistent (g : TeamGroup) : Finset String :=
  g.all_players.filter fun p =>
    0 < groupPlayerCount g p ∧ 3 * g.demos.card ≤ 5 * groupPlayerCount g p

/-- `identify_all_teams` (`team_identification.py:115-224`), from the parsed
compositions.  `numPaths` is `len(demo_paths)`. -/
def identify_all_teams (demos : List (String × DemoComp)) (numPaths minP minD : Nat) :
    List (Finset String) :=
  if numPaths = 0 ∨ numPaths < minD then []
  else
    (groupSnapshots minP (allSnapshots demos minP)).filterMap fun g =>
      if minD ≤ g.demos.card ∧ minP ≤ (groupConsistent g).card then
        some (groupConsistent g)
      else none

/-! ### Structural lemmas about the scoring and grouping -/

/-- Python `max` over a nonempty list returns an element of the list. -/
theorem maxByFirst_mem (s : TeamScore) (rest : List TeamScore) :
    maxByFirst s rest ∈ s :: rest := by
  induction rest generalizing s with
  | nil => simp [maxByFirst]
  | cons b bs ih =>
    have hstep : maxByFirst s (b :: bs) =
        maxByFirst (if scoreKey s < scoreKey b then b else s) bs := rfl
    rw [hstep]
    rcases List.mem_cons.mp (ih (if scoreKey s < scoreKey b then b else s)) with h | h
    · rw [h]
      by_cases hc : scoreKey s < scoreKey b <;> simp [hc]
    · simp [h]

/-- Every group produced by the `identify_all_teams` grouping loop has a seed
member such that every member roster overlaps the *seed* in at least `minP`
players (membership is decided against the seed only). -/
theorem groupSnapshotsAux_seed (minP : Nat) :
    ∀ (fuel : Nat) (comps : List (String × Finset String)),
      ∀ g ∈ groupSnapshotsAux minP fuel comps,
        ∃ seed, seed ∈ g.teams ∧
          ∀ t ∈ g.teams, t = seed ∨ minP ≤ (seed ∩ t).card := by
  intro fuel
  induction fuel with
  | zero =>
    intro comps g hg
    cases comps <;> simp [groupSnapshotsAux] at hg
  | succ n ih =>
    intro comps g hg
    cases comps with
    | nil => simp [groupSnapshotsAux] at hg
    | cons s rest =>
      simp only [groupSnapshotsAux] at hg
      rcases List.mem_cons.mp hg with hhead | htail
      · refine ⟨s.2, ?_, ?_⟩
        · rw [hhead]; exact List.mem_cons_self _ _
        · intro t ht
          rw [hhead] at ht
          rcases List.mem_cons.mp ht with h | h
          · exact Or.inl h
          · right
            rcases List.mem_map.mp h with ⟨x, hx, rfl⟩
            have := (List.mem_filter.mp hx).2
            simpa using this
      · exact ih _ g htail

/-! ### Theorems for claim C3 -/

/-- Roster snapshots forming an overlap chain: `chainS1 ∩ chainS2` and
`chainS2 ∩ chainS3` both reach the minimum roster size 2, while
`chainS1 ∩ chainS3` does not. -/
def chainS1 : Finset String := {"a", "b", "c"}

/-- Middle snapshot of the chain. -/
def chainS2 : Finset String := {"b", "c", "d"}

/-- Last snapshot of the chain; overlaps `chainS2` but not `chainS1`. -/
def chainS3 : Finset String := {"c", "d", "e"}

/-- Three matches whose T rosters form the chain (CT rosters are below the
minimum roster size and produce no snapshot). -/
def chainDemos : List (String × DemoComp) :=
  [("d1", ⟨chainS1, {"z1"}⟩), ("d2", ⟨chainS2, {"z2"}⟩), ("d3", ⟨chainS3, {"z3"}⟩)]

/-- Counterexample to claim C3 as stated: with `min_players = 2`, snapshots
`chainS2` and `chainS3` overlap in 2 players, yet no group produced by the
grouping loop of `identify_all_teams` contains both — membership is not
extended to snapshots that overlap a non-seed member. -/
theorem c3_counterexample :
    2 ≤ (chainS2 ∩ chainS3).card ∧
      ¬ ∃ g ∈ groupSnapshots 2 (allSnapshots chainDemos 2),
          chainS2 ∈ g.teams ∧ chainS3 ∈ g.teams := by decide

/-- Claim C3 (amended): in multi-team mode, `identify_all_teams` groups
snapshots by *seed* linkage: every returned team is the consistent-player set
of a group whose members each overlap the group's seed snapshot in at least
`min_players` players; overlap with non-seed members does not extend a
group. -/
theorem c3_seed_linkage (demos : List (String × DemoComp))
    (numPaths minP minD : Nat) :
    ∀ T ∈ identify_all_teams demos numPaths minP minD,
      ∃ g ∈ groupSnapshots minP (allSnapshots demos minP),
        T = groupConsistent g ∧ minD ≤ g.demos.card ∧ minP ≤ T.card ∧
        ∃ seed ∈ g.teams,
          ∀ t ∈ g.teams, t = seed ∨ minP ≤ (seed ∩ t).card := by
  intro T hT
  unfold identify_all_teams at hT
  split at hT
  · simp at hT
  · rcases List.mem_filterMap.mp hT with ⟨g, hg, hsome⟩
    refine ⟨g, hg, ?_⟩
    by_cases hc : minD ≤ g.demos.card ∧ minP ≤ (groupConsistent g).card
    · rw [if_pos hc] at hsome
      have hTg : T = groupConsistent g := (Option.some.injEq _ _).mp hsome |>.symm
      rcases groupSnapshotsAux_seed minP _ _ g hg with ⟨seed, hs1, hs2⟩
      exact ⟨hTg, hc.1, hTg ▸ hc.2, seed, hs1, hs2⟩
    · rw [if_neg hc] at hsome
      exact absurd hsome (by simp)

/-- Witness for the amended C3 at the chain scenario: `identify_all_teams`
returns the team `{b, c}`, and that team comes from a seed-linked group. -/
theorem c3_seed_linkage_witness :
    ({"b", "c"} : Finset String) ∈ identify_all_teams chainDemos 3 2 2 ∧
      ∃ g ∈ groupSnapshots 2 (allSnapshots chainDemos 2),
        ({"b", "c"} : Finset String) = groupConsistent g ∧ 2 ≤ g.demos.card ∧
        2 ≤ ({"b", "c"} : Finset String).card ∧
        ∃ seed ∈ g.teams, ∀ t ∈ g.teams, t = seed ∨ 2 ≤ (seed ∩ t).card :=
  ⟨by decide, c3_seed_linkage chainDemos 3 2 2 _ (by decide)⟩

/-! ### Theorems for claim C5 -/

/-- Spec-side notion for C5: the number of matches the set `S` participates
in — matches in which some side roster overlaps `S` in at least `minP`
players (the overlap criterion the module uses for "same team"). -/
def teamMatchCount (demos : List DemoComp) (S : Finset String) (minP : Nat) : Nat :=
  demos.countP fun d => minP ≤ (S ∩ d.tP).card ∨ minP ≤ (S ∩ d.ctP).card

/-- Spec-side notion for C5: the number of matches in which player `p`
co-occurs with the rest of the set `S` (all of `S` appears on one side
roster together with `p`). -/
def coOccurCount (demos : List DemoComp) (S : Finset String) (p : String) : Nat :=
  demos.countP fun d =>
    (p ∈ d.tP ∧ S.erase p ⊆ d.tP) ∨ (p ∈ d.ctP ∧ S.erase p ⊆ d.ctP)

/-- Roster with one substitute player `F` (match 1 only). -/
def subRoster : Finset String := {"A", "B", "C", "D", "F"}

/-- Core roster played in matches 2 and 3. -/
def coreRoster : Finset String := {"A", "B", "C", "D", "E"}

/-- C5 counterexample scenario: three parsed demos out of ten input demo
paths (seven paths failed to parse and were skipped by the source loop).
The opposing rosters are pairwise disjoint. -/
def c5Demos : List DemoComp :=
  [⟨subRoster, {"P1", "P2", "P3", "P4", "P5"}⟩,
   ⟨coreRoster, {"Q1", "Q2", "Q3", "Q4", "Q5"}⟩,
   ⟨coreRoster, {"R1", "R2", "R3", "R4", "R5"}⟩]

/-- Counterexample to claim C5 as stated: with ten input demo paths of which
three parse, the 60% filter (measured against `len(demo_paths) = 10`)
eliminates every player, so `identify_common_team` falls back to returning
the best snapshot's full roster `{A,B,C,D,F}`; the substitute `F` co-occurs
with the rest of that set in only 1 of the 3 matches the set participates
in (33% < 60%). -/
theorem c5_counterexample :
    ¬ (∀ p ∈ identify_common_team c5Demos 10 4,
        3 * teamMatchCount c5Demos (identify_common_team c5Demos 10 4) 4 ≤
          5 * coOccurCount c5Demos (identify_common_team c5Demos 10 4) p) := by
  decide

/-- Claim C5 (amended): the set returned by `identify_common_team` is either
empty, or the best-scoring snapshot's roster returned wholesale (when the
60% filter left fewer than `min_players` players), or the filtered
consistent-player set — and in the filtered case every returned player
appears in at least `0.6 × len(demo_paths)` qualifying pairwise snapshot
overlaps of the best snapshot: the 60% denominator is the total number of
input demo paths, not the number of matches the team appears in. -/
theorem c5_denominator (demos : List DemoComp) (numPaths minP : Nat) :
    identify_common_team demos numPaths minP = ∅ ∨
    (∃ pr ∈ pickEach (commonSnapshots demos),
        identify_common_team demos numPaths minP = pr.1.2) ∨
    (∃ pr ∈ pickEach (commonSnapshots demos),
        identify_common_team demos numPaths minP =
          consistentPlayers pr.1.2 pr.2 minP numPaths ∧
        ∀ p ∈ identify_common_team demos numPaths minP,
          3 * numPaths ≤ 5 * playerOverlapCount pr.1.2 pr.2 minP p) := by
  unfold identify_common_team
  split
  · exact Or.inl rfl
  · split
    · exact Or.inl rfl
    · rename_i s rest hscores
      have hmem : maxByFirst s rest ∈ teamOverlapScores (commonSnapshots demos) minP numPaths := by
        rw [hscores]; exact maxByFirst_mem s rest
      rcases List.mem_map.mp hmem with ⟨pr, hpr, hbest⟩
      rw [← hbest]
      dsimp only
      split
      · refine Or.inr (Or.inr ⟨pr, hpr, rfl, ?_⟩)
        intro p hp
        exact ((Finset.mem_filter.mp hp).2).2
      · split
        · exact Or.inr (Or.inl ⟨pr, hpr, rfl⟩)
        · exact Or.inl rfl

/-- Witness for the amended C5: on the counterexample scenario the returned
set is the best snapshot's roster returned wholesale. -/
theorem c5_denominator_witness :
    identify_common_team c5Demos 10 4 = ∅ ∨
    (∃ pr ∈ pickEach (commonSnapshots c5Demos),
        identify_common_team c5Demos 10 4 = pr.1.2) ∨
    (∃ pr ∈ pickEach (commonSnapshots c5Demos),
        identify_common_team c5Demos 10 4 = consistentPlayers pr.1.2 pr.2 4 10 ∧
        ∀ p ∈ identify_common_team c5Demos 10 4,
          3 * 10 ≤ 5 * playerOverlapCount pr.1.2 pr.2 4 p) :=
  c5_denominator c5Demos 10 4

/-! ### Theorems for claim C6 -/

/-- Roster of one team in the C6 scenario. -/
def teamX : Finset String := {"A", "B", "C", "D", "E"}

/-- Roster of the opposing team in the C6 scenario. -/
def teamY : Finset String := {"P", "Q", "R", "S", "U"}

/-- Two matches between the same two teams, `teamX` starting on T in the
first match and on CT in the second. -/
def swapDemos1 : List DemoComp := [⟨teamX, teamY⟩, ⟨teamY, teamX⟩]

/-- The same two matches supplied in the opposite order. -/
def swapDemos2 : List DemoComp := [⟨teamY, teamX⟩, ⟨teamX, teamY⟩]

/-- Counterexample to claim C6 as stated: `swapDemos2` is a permutation of
`swapDemos1`, yet `identify_common_team` returns `teamX` for one order and
`teamY` for the other — both snapshots tie on `(overlap_count, roster size)`
and Python's `max` keeps whichever comes first in input order. -/
theorem c6_counterexample :
    swapDemos1.Perm swapDemos2 ∧
      identify_common_team swapDemos1 2 4 ≠ identify_common_team swapDemos2 2 4 := by
  decide

/-- Under a permutation of the full snapshot list, the per-occurrence scores
are unchanged whenever the scoring function depends only on the multiset of
the other snapshots. -/
theorem pickEach_map_perm {α β : Type} {l₁ l₂ : List α} (h : l₁.Perm l₂) :
    ∀ (f : α → List α → β),
      (∀ x c₁ c₂, c₁.Perm c₂ → f x c₁ = f x c₂) →
      ((pickEach l₁).map fun p => f p.1 p.2).Perm
        ((pickEach l₂).map fun p => f p.1 p.2) := by
  induction h with
  | nil =>
    intro f _
    simp [pickEach]
  | cons x h ih =>
    intro f hf
    rename_i l₁ l₂
    simp only [pickEach, List.map_cons, List.map_map]
    rw [hf x l₁ l₂ h]
    refine List.Perm.cons _ ?_
    have e₁ : ((fun p : α × List α => f p.1 p.2) ∘ fun p : α × List α => (p.1, x :: p.2)) =
        fun p : α × List α => f p.1 (x :: p.2) := rfl
    rw [e₁]
    exact ih (fun a c => f a (x :: c)) fun a c₁ c₂ hc => hf a _ _ (hc.cons x)
  | swap a b l =>
    intro f hf
    simp only [pickEach, List.map_cons, List.map_map]
    have e₁ : ∀ y z : α,
        ((fun p : α × List α => f p.1 p.2) ∘
          ((fun p : α × List α => (p.1, y :: p.2)) ∘ fun p : α × List α => (p.1, z :: p.2))) =
        fun p : α × List α => f p.1 (y :: z :: p.2) := fun y z => rfl
    rw [e₁, e₁]
    have e₂ : (fun p : α × List α => f p.1 (b :: a :: p.2)) =
        fun p : α × List α => f p.1 (a :: b :: p.2) := by
      funext p
      exact hf p.1 _ _ (List.Perm.swap a b p.2)
    rw [e₂]
    exact List.Perm.swap _ _ _
  | trans h₁ h₂ ih₁ ih₂ =>
    intro f hf
    exact (ih₁ f hf).trans (ih₂ f hf)

/-- Claim C6 (amended): team identification is *not* invariant under
permutation of the match list (see the counterexample: ties in the
`(overlap_count, roster size)` key are broken by input order, and the
`identify_all_teams` grouping seeds depend on input order); what is
order-invariant is the scored snapshot data itself: permuting the matches
permutes `team_overlap_scores` — every snapshot keeps the same roster,
overlap count and consistent-player set. -/
theorem c6_scores_permutation_invariant (minP numPaths : Nat)
    {demos₁ demos₂ : List DemoComp} (h : demos₁.Perm demos₂) :
    (teamOverlapScores (commonSnapshots demos₁) minP numPaths).Perm
      (teamOverlapScores (commonSnapshots demos₂) minP numPaths) := by
  have hsnap : (commonSnapshots demos₁).Perm (commonSnapshots demos₂) :=
    h.flatMap_right _
  unfold teamOverlapScores
  refine pickEach_map_perm hsnap
    (fun x c => (⟨x.2, overlapCount x.2 c minP, consistentPlayers x.2 c minP numPaths⟩ : TeamScore))
    ?_
  intro x c₁ c₂ hc
  have h₁ : overlapCount x.2 c₁ minP = overlapCount x.2 c₂ minP := hc.countP_eq _
  have h₂ : consistentPlayers x.2 c₁ minP numPaths = consistentPlayers x.2 c₂ minP numPaths := by
    unfold consistentPlayers
    refine Finset.filter_congr ?_
    intro p _
    unfold playerOverlapCount
    rw [hc.countP_eq]
  dsimp only
  rw [h₁, h₂]

/-- Witness for the amended C6 at the two-match scenario: the score lists of
the two input orders are permutations of each other. -/
theorem c6_scores_permutation_invariant_witness :
    (teamOverlapScores (commonSnapshots swapDemos1) 4 2).Perm
      (teamOverlapScores (commonSnapshots swapDemos2) 4 2) :=
  c6_scores_permutation_invariant 4 2 (by decide)

/-! ## Strategic feature extraction (`src/strats/features.py`)

Row schemas follow the extractors (`src/extractors/positions.py:122-134`,
`utility.py:133-143`, `kills.py:111-125`, `rounds.py:86-153`): every table
produced by the pipeline carries these columns, so a column-presence test in
the source (`'x' in df.columns`) corresponds to plain field access here, and
an empty table (pandas `DataFrame()` with no columns) to the empty list. -/

/-- One row of the rounds table (`extract_rounds_data`): round number, the
uppercased winner side, the bombsite string (`'bombsite_a'`, `'bombsite_b'`
or another value such as `'not_planted'`), the side the target team played
(populated only in team-specific mode), and the source demo file name. -/
structure RoundRow where
  round_num : Nat
  winner : String
  bombsite : String
  side : Option String
  match_file : Option String
deriving DecidableEq, Repr

/-- One row of the positions table (`extract_player_positions`).  Coordinates
and times are exact rationals standing for the float values. -/
structure PosRow where
  player_name : String
  player_side : Option String
  round_num : Nat
  x : ℚ
  y : ℚ
  seconds_into_round : ℚ
  match_file : Option String
deriving DecidableEq, Repr

/-- One row of the utility table (`extract_utility_data`). -/
structure UtilRow where
  thrower_name : String
  thrower_side : Option String
  round_num : Nat
  grenade_type : String
  seconds_into_round : ℚ
  match_file : Option String
deriving DecidableEq, Repr

/-- One row of the kills table (`extract_kill_data`). -/
structure KillRow where
  attacker_name : String
  attacker_side : Option String
  round_num : Nat
  seconds_into_round : ℚ
  match_file : Option String
deriving DecidableEq, Repr

/-- Grid resolution `GRID_SIZE` (`features.py:20`). -/
def GRID_SIZE : Nat := 10

/-- A rectangle of map coordinates: the `(x_min, x_max, y_min, y_max)` tuple
of `features.py`. -/
structure Bounds where
  xmin : ℚ
  xmax : ℚ
  ymin : ℚ
  ymax : ℚ
deriving DecidableEq, Repr

/-- Minimum of a column (`df[col].min()`); the empty case never occurs on the
guarded paths. -/
def listMin : List ℚ → ℚ
  | [] => 0
  | v :: vs => vs.foldl min v

/-- Maximum of a column (`df[col].max()`). -/
def listMax : List ℚ → ℚ
  | [] => 0
  | v :: vs => vs.foldl max v

/-- Bin index of `v` in `g` equal-width bins over `[lo, hi]`, following
`np.histogram2d`: values outside `[lo, hi]` are discarded and the right edge
belongs to the last bin. -/
def binIdx (lo hi : ℚ) (g : Nat) (v : ℚ) : Option Nat :=
  if g = 0 ∨ hi ≤ lo ∨ v < lo ∨ hi < v then none
  else some (min (g - 1) (Int.toNat ⌊(v - lo) * g / (hi - lo)⌋))

/-- Flattened 2-D histogram cell of a position (row-major, as
`hist.flatten()` after `np.histogram2d`). -/
def cellOf (b : Bounds) (g : Nat) (x y : ℚ) : Option Nat :=
  match binIdx b.xmin b.xmax g x, binIdx b.ymin b.ymax g y with
  | some i, some j => some (i * g + j)
  | _, _ => none

/-- `positions_to_grid` (`features.py:23-51`): the flattened `g × g`
occupancy-count grid of the sample positions (the empty input yields the
zero vector, matching the early return at lines 39-40). -/
def positions_to_grid (ps : List PosRow) (b : Bounds) (g : Nat) : List ℚ :=
  (List.range (g * g)).map fun c =>
    ((ps.filter fun p => cellOf b g p.x p.y == some c).length : ℚ)

/-- Per-round fallback bounds of `extract_strategy_features`
(`features.py:121-122`): the round's own coordinate extremes with a ±100
margin. -/
def perRoundBounds (ps : List PosRow) : Bounds :=
  { xmin := listMin (ps.map (·.x)) - 100
    xmax := listMax (ps.map (·.x)) + 100
    ymin := listMin (ps.map (·.y)) - 100
    ymax := listMax (ps.map (·.y)) + 100 }

/-- The grid bounds `extract_strategy_features` actually uses
(`features.py:117-122`): the provided batch-level `map_bounds` when present
(a 4-tuple is always truthy), otherwise bounds recomputed from the current
round's positions. -/
def effectiveBounds (roundPositions : List PosRow) (map_bounds : Option Bounds) :
    Bounds :=
  match map_bounds with
  | some b => b
  | none => perRoundBounds roundPositions

/-- The keys of one occupancy grid, `f'early_grid_{i}'` and alike. -/
def gridKeys (pre : String) : List String :=
  (List.range (GRID_SIZE * GRID_SIZE)).map fun i => pre ++ toString i

/-- The all-zero spatial features in the interleaved key order of the
no-position-data branches (`features.py:146-149` and `152-155`). -/
def zeroGridFeatures : List (String × ℚ) :=
  (List.range (GRID_SIZE * GRID_SIZE)).flatMap fun i =>
    [("early_grid_" ++ toString i, 0), ("mid_grid_" ++ toString i, 0),
     ("late_grid_" ++ toString i, 0)]

/-- The spatial feature block of `extract_strategy_features`
(`features.py:100-155`): filter the round's positions by analyzed side
(`player_side` column) and by team roster, then rasterize the three time
bands with the effective bounds; any empty stage yields the zero block. -/
def spatialFeatures (round_num : Nat) (positions : Option (List PosRow))
    (team_players : Option (Finset String)) (side : Option String)
    (map_bounds : Option Bounds) : List (String × ℚ) :=
  match positions with
  | none => zeroGridFeatures
  | some ps =>
    if ps.isEmpty then zeroGridFeatures
    else
      let rp0 : List PosRow := ps.filter fun p => p.round_num == round_num
      let rp1 : List PosRow := match side with
                 | some sd => rp0.filter fun p => p.player_side == some sd
                 | none => rp0
      let rp : List PosRow := match team_players with
                | some tp => rp1.filter fun p => p.player_name ∈ tp
                | none => rp1
      if rp.isEmpty then zeroGridFeatures
      else
        let b := effectiveBounds rp map_bounds
        ((gridKeys "early_grid_").zip
          (positions_to_grid (rp.filter fun p => p.seconds_into_round ≤ 15) b GRID_SIZE)) ++
        ((gridKeys "mid_grid_").zip
          (positions_to_grid (rp.filter fun p =>
            15 < p.seconds_into_round ∧ p.seconds_into_round ≤ 45) b GRID_SIZE)) ++
        ((gridKeys "late_grid_").zip
          (positions_to_grid (rp.filter fun p => 45 < p.seconds_into_round) b GRID_SIZE))

/-- The all-zero utility features (`features.py:189-197`). -/
def zeroUtilFeatures : List (String × ℚ) :=
  [("smoke_count", 0), ("flash_count", 0), ("he_count", 0), ("molotov_count", 0),
   ("utility_avg_time", 0), ("utility_first_time", 0)]

/-- The utility feature block of `extract_strategy_features`
(`features.py:157-197`): grenade-type counts and throw-time statistics of
the round's filtered utility events. -/
def utilityFeatures (round_num : Nat) (utility : Option (List UtilRow))
    (team_players : Option (Finset String)) (side : Option String) :
    List (String × ℚ) :=
  match utility with
  | none => zeroUtilFeatures
  | some us =>
    if us.isEmpty then zeroUtilFeatures
    else
      let ru0 : List UtilRow := us.filter fun u => u.round_num == round_num
      let ru1 : List UtilRow := match side with
                 | some sd => ru0.filter fun u => u.thrower_side == some sd
                 | none => ru0
      let ru : List UtilRow := match team_players with
                | some tp => ru1.filter fun u => u.thrower_name ∈ tp
                | none => ru1
      if ru.isEmpty then zeroUtilFeatures
      else
        [("smoke_count", ((ru.filter fun u => u.grenade_type == "smoke").length : ℚ)),
         ("flash_count", ((ru.filter fun u => u.grenade_type == "flash").length : ℚ)),
         ("he_count", ((ru.filter fun u => u.grenade_type == "he").length : ℚ)),
         ("molotov_count", ((ru.filter fun u => u.grenade_type == "molotov").length : ℚ)),
         ("utility_avg_time", (ru.map (·.seconds_into_round)).sum / (ru.length : ℚ)),
         ("utility_first_time", listMin (ru.map (·.seconds_into_round)))]

/-- The all-zero kill-timing features (`features.py:220-224`). -/
def zeroKillFeatures : List (String × ℚ) :=
  [("first_kill_time", 0), ("kills_before_30s", 0)]

/-- The kill-timing feature block of `extract_strategy_features`
(`features.py:199-224`). -/
def killFeatures (round_num : Nat) (kills : Option (List KillRow))
    (team_players : Option (Finset String)) (side : Option String) :
    List (String × ℚ) :=
  match kills with
  | none => zeroKillFeatures
  | some ks =>
    if ks.isEmpty then zeroKillFeatures
    else
      let rk0 : List KillRow := ks.filter fun k => k.round_num == round_num
      let rk1 : List KillRow := match side with
                 | some sd => rk0.filter fun k => k.attacker_side == some sd
                 | none => rk0
      let rk : List KillRow := match team_players with
                | some tp => rk1.filter fun k => k.attacker_name ∈ tp
                | none => rk1
      if rk.isEmpty then zeroKillFeatures
      else
        [("first_kill_time", listMin (rk.map (·.seconds_into_round))),
         ("kills_before_30s", ((rk.filter fun k => k.seconds_into_round ≤ 30).length : ℚ))]

/-- The basic feature block (`features.py:86-98`): round number, encoded
bombsite, and the outcome flag (team-specific side when the round carries
one, otherwise the analyzed side, otherwise 0). -/
def basicFeatures (round_num : Nat) (round_info : RoundRow) (side : Option String) :
    List (String × ℚ) :=
  [("round_num", (round_num : ℚ)),
   ("bombsite", if round_info.bombsite == "bombsite_a" then 1
                else if round_info.bombsite == "bombsite_b" then 2 else 0),
   ("won", match round_info.side with
           | some s => if s == round_info.winner then 1 else 0
           | none => match side with
                     | some sd => if sd == round_info.winner then 1 else 0
                     | none => 0)]

/-- `extract_strategy_features` (`features.py:54-226`): `none` models the
empty dictionary returned when the round is absent from the rounds table
(the caller skips it); otherwise the feature dictionary in insertion
order. -/
def extract_strategy_features (round_num : Nat) (rounds : List RoundRow)
    (positions : Option (List PosRow)) (utility : Option (List UtilRow))
    (kills : Option (List KillRow)) (team_players : Option (Finset String))
    (side : Option String) (map_bounds : Option Bounds) :
    Option (List (String × ℚ)) :=
  match (rounds.filter fun r => r.round_num == round_num).head? with
  | none => none
  | some round_info =>
    some (basicFeatures round_num round_info side ++
          spatialFeatures round_num positions team_players side map_bounds ++
          utilityFeatures round_num utility team_players side ++
          killFeatures round_num kills team_players side)

/-- The batch-level bounds formula of `build_feature_matrix`
(`features.py:275-279`): the coordinate extremes of the whole position table
with a ±100 margin. -/
def batchBounds (ps : List PosRow) : Bounds :=
  { xmin := listMin (ps.map (·.x)) - 100
    xmax := listMax (ps.map (·.x)) + 100
    ymin := listMin (ps.map (·.y)) - 100
    ymax := listMax (ps.map (·.y)) + 100 }

/-- `map_bounds` of `build_feature_matrix` (`features.py:266-280`), computed
once per batch.  The side filter at lines 271-272 tests
`'side' in pos_for_bounds.columns`; the position schema produced by
`extract_player_positions` has a `player_side` column and no `side` column,
so that filter never applies and the bounds cover every position row of the
batch.  `none` exactly when there is no position data at all. -/
def computeMapBounds (positions : Option (List PosRow)) : Option Bounds :=
  match positions with
  | none => none
  | some ps => if ps.isEmpty then none else some (batchBounds ps)

/-- One row of the feature matrix: the feature dictionary plus the
`round_num` / `match_file` identifiers the caller attaches for the
merge-back (`features.py:325-327`; `match_file` is a string column in the
source and is carried here as a field because `entries` holds the numeric
features). -/
structure FeatRow where
  round_num : Nat
  match_file : Option String
  entries : List (String × ℚ)
deriving DecidableEq, Repr

/-- The per-round, per-match slice of an event table taken by
`build_feature_matrix` (`features.py:291-312`): when the round row carries a
match file the rows are filtered by `(round_num, match_file)`, otherwise by
`round_num` alone. -/
def roundSlice {ρ : Type} (roundNumOf : ρ → Nat) (matchFileOf : ρ → Option String)
    (rows : Option (List ρ)) (rn : Nat) (mf : Option String) : Option (List ρ) :=
  rows.map fun l =>
    match mf with
    | some m => l.filter fun r => roundNumOf r == rn ∧ matchFileOf r == some m
    | none => l.filter fun r => roundNumOf r == rn

/-- `build_feature_matrix` (`features.py:229-337`).  With a populated `side`
column (team-specific mode) the rounds are first filtered to the analyzed
side; in map-wide mode every round is analyzed and only player actions are
side-filtered.  The batch bounds are computed once and the very same value
is passed to every per-round feature extraction. -/
def build_feature_matrix (rounds : List RoundRow) (positions : Option (List PosRow))
    (utility : Option (List UtilRow)) (kills : Option (List KillRow))
    (side : Option String) (team_players : Option (Finset String)) : List FeatRow :=
  let has_side_data := rounds.any fun r => r.side.isSome
  let filtered_rounds : List RoundRow :=
    if has_side_data then
      match side with
      | some sd => rounds.filter fun r => r.side == some sd
      | none => rounds
    else rounds
  if filtered_rounds.isEmpty then []
  else
    let map_bounds := computeMapBounds positions
    filtered_rounds.filterMap fun row =>
      let rn := row.round_num
      let mf := row.match_file
      let rmask : List RoundRow :=
        match mf with
        | some m => rounds.filter fun r => r.round_num == rn ∧ r.match_file == some m
        | none => rounds.filter fun r => r.round_num == rn
      (extract_strategy_features rn rmask
          (roundSlice (·.round_num) (·.match_file) positions rn mf)
          (roundSlice (·.round_num) (·.match_file) utility rn mf)
          (roundSlice (·.round_num) (·.match_file) kills rn mf)
          team_players side map_bounds).map
        fun entries => { round_num := rn, match_file := mf, entries := entries }

/-- Column list of `pd.DataFrame(features_list)`: the keys of the row
dictionaries in order of first appearance. -/
def dfColumns (rows : List (List (String × ℚ))) : List String :=
  rows.foldl (fun acc r => acc ++ ((r.map (·.1)).filter fun k => ¬ acc.contains k)) []

/-- A row dictionary aligned to a column list, as the `DataFrame` constructor
does: per column, the row's value if the key is present. -/
def alignRow (cols : List String) (r : List (String × ℚ)) : List (Option ℚ) :=
  cols.map fun k => (r.find? fun e => e.1 == k).map (·.2)

/-- The feature columns of one clustering run, in the insertion order of the
data path of `extract_strategy_features`. -/
def featureColumns : List String :=
  ["round_num", "bombsite", "won"] ++
  gridKeys "early_grid_" ++ gridKeys "mid_grid_" ++ gridKeys "late_grid_" ++
  ["smoke_count", "flash_count", "he_count", "molotov_count",
   "utility_avg_time", "utility_first_time", "first_kill_time", "kills_before_30s"]

/-! ### Shape lemmas for the feature blocks -/

theorem gridKeys_length (pre : String) : (gridKeys pre).length = 100 := by
  simp [gridKeys, GRID_SIZE]

theorem positions_to_grid_length (ps : List PosRow) (b : Bounds) (g : Nat) :
    (positions_to_grid ps b g).length = g * g := by
  simp [positions_to_grid]

theorem zeroGridFeatures_keys (k : String) :
    k ∈ zeroGridFeatures.map (·.1) ↔
      k ∈ gridKeys "early_grid_" ++ gridKeys "mid_grid_" ++ gridKeys "late_grid_" := by
  simp only [zeroGridFeatures, gridKeys, List.map_flatMap, List.mem_flatMap,
    List.mem_append, List.mem_map, List.mem_range, List.map_cons, List.map_nil,
    List.mem_cons, List.not_mem_nil, or_false]
  aesop

set_option maxRecDepth 4000 in
theorem zeroGridFeatures_length : zeroGridFeatures.length = 300 := by decide

theorem zeroGridFeatures_values : ∀ kv ∈ zeroGridFeatures, kv.2 = 0 := by
  intro kv hkv
  simp only [zeroGridFeatures, List.mem_flatMap, List.mem_cons, List.not_mem_nil,
    or_false, List.mem_range] at hkv
  rcases hkv with ⟨i, _, h | h | h⟩ <;> simp [h]

theorem spatialFeatures_keys (round_num : Nat) (positions : Option (List PosRow))
    (team_players : Option (Finset String)) (side : Option String)
    (map_bounds : Option Bounds) (k : String) :
    k ∈ (spatialFeatures round_num positions team_players side map_bounds).map (·.1) ↔
      k ∈ gridKeys "early_grid_" ++ gridKeys "mid_grid_" ++ gridKeys "late_grid_" := by
  have hzip : ∀ (pre : String) (ps : List PosRow) (b : Bounds),
      ((gridKeys pre).zip (positions_to_grid ps b GRID_SIZE)).map Prod.fst = gridKeys pre := by
    intro pre ps b
    apply List.map_fst_zip
    rw [gridKeys_length, positions_to_grid_length]
    simp [GRID_SIZE]
  unfold spatialFeatures
  split
  · exact zeroGridFeatures_keys k
  · split
    · exact zeroGridFeatures_keys k
    · dsimp only
      split
      · exact zeroGridFeatures_keys k
      · simp only [List.map_append, hzip]

theorem spatialFeatures_length (round_num : Nat) (positions : Option (List PosRow))
    (team_players : Option (Finset String)) (side : Option String)
    (map_bounds : Option Bounds) :
    (spatialFeatures round_num positions team_players side map_bounds).length = 300 := by
  unfold spatialFeatures
  split
  · exact zeroGridFeatures_length
  · split
    · exact zeroGridFeatures_length
    · dsimp only
      split
      · exact zeroGridFeatures_length
      · simp [List.length_zip, gridKeys_length, positions_to_grid_length, GRID_SIZE]

theorem utilityFeatures_keys (round_num : Nat) (utility : Option (List UtilRow))
    (team_players : Option (Finset String)) (side : Option String) :
    (utilityFeatures round_num utility team_players side).map (·.1) =
      ["smoke_count", "flash_count", "he_count", "molotov_count",
       "utility_avg_time", "utility_first_time"] := by
  unfold utilityFeatures
  split
  · rfl
  · split
    · rfl
    · dsimp only
      split <;> rfl

theorem killFeatures_keys (round_num : Nat) (kills : Option (List KillRow))
    (team_players : Option (Finset String)) (side : Option String) :
    (killFeatures round_num kills team_players side).map (·.1) =
      ["first_kill_time", "kills_before_30s"] := by
  unfold killFeatures
  split
  · rfl
  · split
    · rfl
    · dsimp only
      split <;> rfl

/-- Every feature dictionary produced by `extract_strategy_features` has
exactly the canonical key set: the matrix is rectangular with one fixed
column family across every round of the batch. -/
theorem extract_keys (round_num : Nat) (rounds : List RoundRow)
    (positions : Option (List PosRow)) (utility : Option (List UtilRow))
    (kills : Option (List KillRow)) (team_players : Option (Finset String))
    (side : Option String) (map_bounds : Option Bounds)
    (entries : List (String × ℚ))
    (h : extract_strategy_features round_num rounds positions utility kills
          team_players side map_bounds = some entries) :
    (∀ k, k ∈ entries.map (·.1) ↔ k ∈ featureColumns) ∧
      entries.length = featureColumns.length := by
  unfold extract_strategy_features at h
  rcases hh : (rounds.filter fun r => r.round_num == round_num).head? with _ | ri
  · rw [hh] at h; cases h
  · rw [hh] at h
    have he : entries = basicFeatures round_num ri side ++
        spatialFeatures round_num positions team_players side map_bounds ++
        utilityFeatures round_num utility team_players side ++
        killFeatures round_num kills team_players side :=
      ((Option.some.injEq _ _).mp h).symm
    subst he
    constructor
    · intro k
      simp only [List.map_append, List.mem_append, utilityFeatures_keys, killFeatures_keys,
        spatialFeatures_keys, featureColumns, basicFeatures]
      simp only [List.map_cons, List.map_nil, List.mem_cons, List.not_mem_nil, List.mem_append]
      tauto
    · simp only [List.length_append, spatialFeatures_length, featureColumns]
      have hu : (utilityFeatures round_num utility team_players side).length = 6 := by
        have := utilityFeatures_keys round_num utility team_players side
        have hl := congrArg List.length this
        simpa using hl
      have hk : (killFeatures round_num kills team_players side).length = 2 := by
        have := killFeatures_keys round_num kills team_players side
        have hl := congrArg List.length this
        simpa using hl
      simp [hu, hk, basicFeatures, gridKeys_length]

/-! ### Missing-data lemmas -/

theorem spatialFeatures_zero (rn : Nat) (positions : Option (List PosRow))
    (team_players : Option (Finset String)) (side : Option String)
    (map_bounds : Option Bounds)
    (hpos : ∀ ps, positions = some ps → ps.filter (fun p => p.round_num == rn) = []) :
    spatialFeatures rn positions team_players side map_bounds = zeroGridFeatures := by
  cases positions with
  | none => rfl
  | some ps =>
    have h0 := hpos ps rfl
    unfold spatialFeatures
    cases side <;> cases team_players <;> simp [h0]

theorem utilityFeatures_zero (rn : Nat) (utility : Option (List UtilRow))
    (team_players : Option (Finset String)) (side : Option String)
    (hutil : ∀ us, utility = some us → us.filter (fun u => u.round_num == rn) = []) :
    utilityFeatures rn utility team_players side = zeroUtilFeatures := by
  cases utility with
  | none => rfl
  | some us =>
    have h0 := hutil us rfl
    unfold utilityFeatures
    cases side <;> cases team_players <;> simp [h0]

theorem killFeatures_zero (rn : Nat) (kills : Option (List KillRow))
    (team_players : Option (Finset String)) (side : Option String)
    (hkill : ∀ ks, kills = some ks → ks.filter (fun k => k.round_num == rn) = []) :
    killFeatures rn kills team_players side = zeroKillFeatures := by
  cases kills with
  | none => rfl
  | some ks =>
    have h0 := hkill ks rfl
    unfold killFeatures
    cases side <;> cases team_players <;> simp [h0]

/-- Every column of `pd.DataFrame(features_list)` comes from some row. -/
theorem mem_dfColumns {k : String} :
    ∀ (rows : List (List (String × ℚ))) (acc : List String),
      k ∈ rows.foldl (fun acc r => acc ++ ((r.map (·.1)).filter fun c => ¬ acc.contains c)) acc →
      k ∈ acc ∨ ∃ r ∈ rows, k ∈ r.map (·.1) := by
  intro rows
  induction rows with
  | nil => intro acc h; exact Or.inl h
  | cons r rs ih =>
    intro acc h
    rcases ih _ h with h' | ⟨r', hr', hk⟩
    · rcases List.mem_append.mp h' with h'' | h''
      · exact Or.inl h''
      · exact Or.inr ⟨r, List.mem_cons_self _ _, (List.mem_filter.mp h'').1⟩
    · exact Or.inr ⟨r', List.mem_cons.mpr (Or.inr hr'), hk⟩

/-- Claim C7: a round with no position (nor utility, nor kill) data still
yields a feature vector; all its non-identifier features are zero; its key
set is exactly the canonical feature-column set shared by every extraction
result; and in any feature table whose rows all carry that key set, every
aligned row is complete (no missing value) and has the common column
length — the matrix stays rectangular. -/
theorem c7_missing_data_zero_features (rn : Nat) (rounds : List RoundRow)
    (positions : Option (List PosRow)) (utility : Option (List UtilRow))
    (kills : Option (List KillRow)) (team_players : Option (Finset String))
    (side : Option String) (map_bounds : Option Bounds)
    (hround : (rounds.filter fun r => r.round_num == rn) ≠ [])
    (hpos : ∀ ps, positions = some ps → ps.filter (fun p => p.round_num == rn) = [])
    (hutil : ∀ us, utility = some us → us.filter (fun u => u.round_num == rn) = [])
    (hkill : ∀ ks, kills = some ks → ks.filter (fun k => k.round_num == rn) = []) :
    ∃ entries, extract_strategy_features rn rounds positions utility kills
        team_players side map_bounds = some entries ∧
      (∀ kv ∈ entries,
        kv.1 ∉ (["round_num", "bombsite", "won"] : List String) → kv.2 = 0) ∧
      (∀ k, k ∈ entries.map (·.1) ↔ k ∈ featureColumns) ∧
      entries.length = featureColumns.length ∧
      (∀ (rows : List (List (String × ℚ))),
        (∀ r ∈ rows, ∀ k, k ∈ r.map (·.1) ↔ k ∈ featureColumns) →
        ∀ r ∈ rows,
          (alignRow (dfColumns rows) r).length = (dfColumns rows).length ∧
          ∀ v ∈ alignRow (dfColumns rows) r, v.isSome) := by
  obtain ⟨ri, hri⟩ : ∃ ri, (rounds.filter fun r => r.round_num == rn).head? = some ri := by
    cases hh : (rounds.filter fun r => r.round_num == rn).head? with
    | none => exact absurd (List.head?_eq_none_iff.mp hh) hround
    | some ri => exact ⟨ri, rfl⟩
  have hex : extract_strategy_features rn rounds positions utility kills
      team_players side map_bounds =
      some (basicFeatures rn ri side ++
        spatialFeatures rn positions team_players side map_bounds ++
        utilityFeatures rn utility team_players side ++
        killFeatures rn kills team_players side) := by
    unfold extract_strategy_features
    rw [hri]
  refine ⟨_, hex, ?_, (extract_keys rn rounds positions utility kills team_players
      side map_bounds _ hex).1, (extract_keys rn rounds positions utility kills
      team_players side map_bounds _ hex).2, ?_⟩
  · intro kv hkv hnotbasic
    rw [spatialFeatures_zero rn positions team_players side map_bounds hpos,
      utilityFeatures_zero rn utility team_players side hutil,
      killFeatures_zero rn kills team_players side hkill] at hkv
    simp only [List.append_assoc, List.mem_append] at hkv
    rcases hkv with hb | hz | hu | hk
    · exfalso
      apply hnotbasic
      simp only [basicFeatures, List.mem_cons, List.not_mem_nil, or_false] at hb
      rcases hb with h | h | h <;> simp [h]
    · exact zeroGridFeatures_values kv hz
    · simp only [zeroUtilFeatures, List.mem_cons, List.not_mem_nil, or_false] at hu
      rcases hu with h | h | h | h | h | h <;> simp [h]
    · simp only [zeroKillFeatures, List.mem_cons, List.not_mem_nil, or_false] at hk
      rcases hk with h | h <;> simp [h]
  · intro rows hrows r hr
    refine ⟨by simp [alignRow], ?_⟩
    intro v hv
    simp only [alignRow, List.mem_map] at hv
    rcases hv with ⟨k, hkcols, hfind⟩
    have hk : k ∈ r.map (·.1) := by
      rcases mem_dfColumns rows [] hkcols with h | ⟨r', hr', hk'⟩
      · exact absurd h (List.not_mem_nil k)
      · exact ((hrows r hr) k).mpr (((hrows r' hr') k).mp hk')
    rcases List.mem_map.mp hk with ⟨e, he, hke⟩
    have : (r.find? fun e => e.1 == k).isSome := by
      rw [List.find?_isSome]
      exact ⟨e, he, by simp [hke]⟩
    rw [← hfind]
    simpa using this

/-- Concrete one-round batch for the C7 witness: round 3 exists in the round
table, the batch has position data only for round 1, an empty utility table
and no kill table. -/
def c7Rounds : List RoundRow := [⟨3, "T", "not_planted", none, some "m1.dem"⟩]

/-- Position sample of a different round (round 1) in the C7 witness batch. -/
def c7Positions : List PosRow := [⟨"alice", some "T", 1, 5, 7, 3, some "m1.dem"⟩]

/-- Witness for C7 at the concrete batch: round 3 has no position, utility or
kill data, and extraction still yields a complete all-features vector. -/
theorem c7_missing_data_zero_features_witness :
    ∃ entries, extract_strategy_features 3 c7Rounds (some c7Positions) (some [])
        none none (some "T") (some ⟨0, 10, 0, 10⟩) = some entries ∧
      (∀ kv ∈ entries,
        kv.1 ∉ (["round_num", "bombsite", "won"] : List String) → kv.2 = 0) ∧
      (∀ k, k ∈ entries.map (·.1) ↔ k ∈ featureColumns) ∧
      entries.length = featureColumns.length ∧
      (∀ (rows : List (List (String × ℚ))),
        (∀ r ∈ rows, ∀ k, k ∈ r.map (·.1) ↔ k ∈ featureColumns) →
        ∀ r ∈ rows,
          (alignRow (dfColumns rows) r).length = (dfColumns rows).length ∧
          ∀ v ∈ alignRow (dfColumns rows) r, v.isSome) :=
  c7_missing_data_zero_features 3 c7Rounds (some c7Positions) (some []) none none
    (some "T") (some ⟨0, 10, 0, 10⟩)
    (by decide)
    (by intro ps h; injection h with h2; subst h2; rfl)
    (by intro us h; injection h with h2; subst h2; rfl)
    (by intro ks h; exact Option.noConfusion h)

/-! ### Theorems for claim C4 -/

/-- Claim C4: occupancy-grid bounds are computed once per batch from all
position data (`computeMapBounds`), `build_feature_matrix` passes that single
value into every per-round feature extraction, and the per-round recompute
fallback of `extract_strategy_features` is unreachable: when the batch bounds
are absent every per-round position slice is empty, and otherwise every
round's effective bounds equal the batch bounds, so the same physical
`(x, y)` maps to the same grid cell in every round of every match. -/
theorem c4_shared_grid_frame (positions : Option (List PosRow)) :
    (∀ ps, positions = some ps → ps ≠ [] →
      computeMapBounds positions = some (batchBounds ps) ∧
      ∀ slice : List PosRow,
        effectiveBounds slice (computeMapBounds positions) = batchBounds ps) ∧
    (computeMapBounds positions = none →
      ∀ (rn : Nat) (mf : Option String) (s : List PosRow),
        roundSlice (·.round_num) (·.match_file) positions rn mf = some s → s = []) ∧
    (∀ (rn₁ rn₂ : Nat) (mf₁ mf₂ : Option String) (s₁ s₂ : List PosRow),
      roundSlice (·.round_num) (·.match_file) positions rn₁ mf₁ = some s₁ →
      roundSlice (·.round_num) (·.match_file) positions rn₂ mf₂ = some s₂ →
      s₁ ≠ [] →
      ∀ x y : ℚ,
        cellOf (effectiveBounds s₁ (computeMapBounds positions)) GRID_SIZE x y =
          cellOf (effectiveBounds s₂ (computeMapBounds positions)) GRID_SIZE x y) ∧
    (∀ (rounds : List RoundRow) (utility : Option (List UtilRow))
        (kills : Option (List KillRow)) (side : Option String)
        (team_players : Option (Finset String)) (fr : FeatRow),
      fr ∈ build_feature_matrix rounds positions utility kills side team_players →
      extract_strategy_features fr.round_num
        (match fr.match_file with
         | some m => rounds.filter fun r =>
             r.round_num == fr.round_num ∧ r.match_file == some m
         | none => rounds.filter fun r => r.round_num == fr.round_num)
        (roundSlice (·.round_num) (·.match_file) positions fr.round_num fr.match_file)
        (roundSlice (·.round_num) (·.match_file) utility fr.round_num fr.match_file)
        (roundSlice (·.round_num) (·.match_file) kills fr.round_num fr.match_file)
        team_players side (computeMapBounds positions) = some fr.entries) := by
  have hbatch : ∀ ps, positions = some ps → ps ≠ [] →
      computeMapBounds positions = some (batchBounds ps) ∧
      ∀ slice : List PosRow,
        effectiveBounds slice (computeMapBounds positions) = batchBounds ps := by
    intro ps hps hne
    have hcb : computeMapBounds positions = some (batchBounds ps) := by
      rw [hps]
      unfold computeMapBounds
      have : ps.isEmpty = false := by simpa [List.isEmpty_iff] using hne
      simp [this]
    exact ⟨hcb, fun slice => by rw [hcb]; rfl⟩
  refine ⟨hbatch, ?_, ?_, ?_⟩
  · intro hnone rn mf s hs
    cases positions with
    | none => exact Option.noConfusion hs
    | some ps =>
      have hempty : ps = [] := by
        by_contra hne
        rw [(hbatch ps rfl hne).1] at hnone
        exact Option.noConfusion hnone
      subst hempty
      simp only [roundSlice, Option.map_some] at hs
      rcases hs with hs
      cases mf <;> simpa using hs.symm
  · intro rn₁ rn₂ mf₁ mf₂ s₁ s₂ h₁ h₂ hne x y
    cases positions with
    | none => exact Option.noConfusion h₁
    | some ps =>
      have hpsne : ps ≠ [] := by
        intro h0
        subst h0
        simp only [roundSlice, Option.map_some] at h₁
        rcases h₁ with h₁
        apply hne
        cases mf₁ <;> simpa using h₁.symm
      rw [(hbatch ps rfl hpsne).2 s₁, (hbatch ps rfl hpsne).2 s₂]
  · intro rounds utility kills side team_players fr hmem
    unfold build_feature_matrix at hmem
    dsimp only at hmem
    repeat' split at hmem
    all_goals
      first
        | exact absurd hmem (List.not_mem_nil fr)
        | (rcases List.mem_filterMap.mp hmem with ⟨row, _, hrow⟩
           rcases Option.map_eq_some'.mp hrow with ⟨entries, hex, hfr⟩
           rw [← hfr]
           exact hex)

/-- Two-round position batch for the C4 witness. -/
def c4Pos : List PosRow :=
  [⟨"a", some "T", 1, 5, 7, 3, some "m"⟩, ⟨"b", some "T", 2, 50, 70, 3, some "m"⟩]

/-- Witness for C4: on a concrete two-round batch the bounds are the batch
bounds and the same point falls in the same cell in both rounds'
extractions. -/
theorem c4_shared_grid_frame_witness :
    computeMapBounds (some c4Pos) = some (batchBounds c4Pos) ∧
      cellOf (effectiveBounds [⟨"a", some "T", 1, 5, 7, 3, some "m"⟩]
          (computeMapBounds (some c4Pos))) GRID_SIZE 5 7 =
        cellOf (effectiveBounds [⟨"b", some "T", 2, 50, 70, 3, some "m"⟩]
          (computeMapBounds (some c4Pos))) GRID_SIZE 5 7 :=
  ⟨((c4_shared_grid_frame (some c4Pos)).1 c4Pos rfl (by decide)).1,
   (c4_shared_grid_frame (some c4Pos)).2.2.1 1 2 (some "m") (some "m")
     [⟨"a", some "T", 1, 5, 7, 3, some "m"⟩] [⟨"b", some "T", 2, 50, 70, 3, some "m"⟩]
     (by decide) (by decide) (by decide) 5 7⟩

/-! ## Strategy clustering (`src/strats/clustering.py:15-58`)

`cluster_strategies` standardizes the feature matrix with
`sklearn.preprocessing.StandardScaler` and clusters with
`sklearn.cluster.DBSCAN(eps, min_samples, metric='euclidean')`.  The two
library calls are modelled exactly: the scaler maps column `j` to
`(x − μ_j)/σ_j` with `σ_j = 1` when the column variance is zero (so such a
column becomes all zeros), and DBSCAN labels a point `-1` iff no core point
(a point with at least `min_samples` neighbors within `eps`, itself
included) lies within `eps` of it.  All comparisons are kept in squared form
(`dist ≤ eps ⟺ dist² ≤ eps²`), which is exact over `ℚ`; positive cluster
ids are arbitrary representatives, matching the spec's "arbitrary,
non-ordered cluster identifiers". -/

/-- One float cell: a finite rational or a non-finite IEEE value. -/
inductive Fval
  | num (q : ℚ)
  | nan
  | posinf
  | neginf
deriving DecidableEq, Repr

/-- `np.nan_to_num(·, nan=0.0, posinf=0.0, neginf=0.0)` on one cell
(`clustering.py:48`). -/
def nanToNum : Fval → ℚ
  | .num q => q
  | _ => 0

/-- The feature table as `cluster_strategies` receives it: column names and
one cell list per row.  `DataFrame.empty` is true when either axis has
length zero. -/
structure FTable where
  cols : List String
  rows : List (List Fval)
deriving DecidableEq, Repr

/-- One row of `features_df[feature_cols].values` after `np.nan_to_num`:
cells of the non-excluded columns, sanitized. -/
def selectRow (cols excl : List String) (row : List Fval) : List ℚ :=
  (cols.zip row).filterMap fun cv =>
    if cv.1 ∈ excl then none else some (nanToNum cv.2)

/-- Mean of column `j` of the selected matrix (`StandardScaler`). -/
def colMean (X : List (List ℚ)) (j : Nat) : ℚ :=
  (X.map fun r => r.getD j 0).sum / (X.length : ℚ)

/-- Population variance (`ddof = 0`, as `StandardScaler`) of column `j`. -/
def colVar (X : List (List ℚ)) (j : Nat) : ℚ :=
  (X.map fun r => (r.getD j 0 - colMean X j) ^ 2).sum / (X.length : ℚ)

/-- Squared Euclidean distance between the standardized rows `i` and `k`:
per column `((x_ij − μ_j)/σ_j − (x_kj − μ_j)/σ_j)² = (x_ij − x_kj)²/σ_j²`,
and a zero-variance column (scaled by `σ = 1` onto the all-zero column)
contributes nothing. -/
def sqDist (X : List (List ℚ)) (d : Nat) (i k : Nat) : ℚ :=
  ((List.range d).map fun j =>
    if colVar X j = 0 then 0
    else ((X.getD i []).getD j 0 - (X.getD k []).getD j 0) ^ 2 / colVar X j).sum

/-- Indices within `eps` of point `i` (the point itself included, as sklearn
counts it: `sqDist X d i i = 0 ≤ eps²`). -/
def neighbors (n : Nat) (d2 : Nat → Nat → ℚ) (eps : ℚ) (i : Nat) : List Nat :=
  (List.range n).filter fun j => d2 i j ≤ eps ^ 2

/-- DBSCAN core point: at least `min_samples` points in its
`eps`-neighborhood. -/
def isCore (n : Nat) (d2 : Nat → Nat → ℚ) (eps : ℚ) (minS i : Nat) : Prop :=
  minS ≤ (neighbors n d2 eps i).length

instance (n : Nat) (d2 : Nat → Nat → ℚ) (eps : ℚ) (minS i : Nat) :
    Decidable (isCore n d2 eps minS i) := by
  unfold isCore; infer_instance

/-- A point belongs to a dense region iff some core point lies within `eps`
of it (core points qualify through themselves). -/
def inDenseRegion (n : Nat) (d2 : Nat → Nat → ℚ) (eps : ℚ) (minS i : Nat) : Prop :=
  ∃ j ∈ List.range n, isCore n d2 eps minS j ∧ d2 i j ≤ eps ^ 2

instance (n : Nat) (d2 : Nat → Nat → ℚ) (eps : ℚ) (minS i : Nat) :
    Decidable (inDenseRegion n d2 eps minS i) := by
  unfold inDenseRegion; infer_instance

/-- One expansion step of the core-graph closure: add every core point within
`eps` of the current set. -/
def coreExpand (n : Nat) (d2 : Nat → Nat → ℚ) (eps : ℚ) (minS : Nat)
    (s : List Nat) : List Nat :=
  (List.range n).filter fun j =>
    j ∈ s ∨ (isCore n d2 eps minS j ∧ s.any fun c => d2 c j ≤ eps ^ 2)

/-- The cluster representative of a dense point: the minimum index in the
core-graph closure of its core neighbors (`n` expansion steps reach the
fixpoint on `n` points; the concrete id only needs to be stable per
component, cluster ids being arbitrary). -/
def clusterRep (n : Nat) (d2 : Nat → Nat → ℚ) (eps : ℚ) (minS i : Nat) : Nat :=
  let seed := (List.range n).filter fun j =>
    isCore n d2 eps minS j ∧ d2 i j ≤ eps ^ 2
  match Nat.iterate (coreExpand n d2 eps minS) n seed with
  | [] => 0
  | x :: xs => xs.foldl min x

/-- The DBSCAN labels: `-1` for points outside every dense region, the
component representative otherwise. -/
def dbscanLabels (n : Nat) (d2 : Nat → Nat → ℚ) (eps : ℚ) (minS : Nat) :
    List Int :=
  (List.range n).map fun i =>
    if inDenseRegion n d2 eps minS i then (clusterRep n d2 eps minS i : Int)
    else -1

/-- The default `exclude_cols` (`clustering.py:35-36`). -/
def defaultExcludeCols : List String := ["round_num", "won", "bombsite", "match_file"]

/-- `cluster_strategies` (`clustering.py:15-58`): empty table (either axis)
returns the empty label array; no remaining feature column returns `-1` per
row; otherwise sanitize, standardize and run DBSCAN. -/
def cluster_strategies (t : FTable) (eps : ℚ) (min_samples : Nat)
    (exclude_cols : Option (List String)) : List Int :=
  if t.rows.isEmpty ∨ t.cols.isEmpty then []
  else
    let excl := exclude_cols.getD defaultExcludeCols
    let feature_cols := t.cols.filter fun c => c ∉ excl
    if feature_cols.isEmpty then List.replicate t.rows.length (-1)
    else
      let X := t.rows.map (selectRow t.cols excl)
      dbscanLabels X.length (sqDist X feature_cols.length) eps min_samples

/-! ### Theorems for claims C8 and C10 -/

theorem sum_nonneg_all_zero :
    ∀ (l : List ℚ), (∀ x ∈ l, 0 ≤ x) → l.sum = 0 → ∀ x ∈ l, x = 0 := by
  intro l
  induction l with
  | nil => simp
  | cons a as ih =>
    intro hpos hsum x hx
    have ha : 0 ≤ a := hpos a (by simp)
    have has : 0 ≤ as.sum := List.sum_nonneg fun y hy => hpos y (by simp [hy])
    rw [List.sum_cons] at hsum
    have ha0 : a = 0 := by linarith
    have hs0 : as.sum = 0 := by linarith
    rcases List.mem_cons.mp hx with h | h
    · rw [h, ha0]
    · exact ih (fun y hy => hpos y (by simp [hy])) hs0 x h

theorem list_sum_sub_const (l : List ℚ) (c : ℚ) :
    (l.map fun x => x - c).sum = l.sum - l.length * c := by
  induction l with
  | nil => simp
  | cons a as ih =>
    simp only [List.map_cons, List.sum_cons, List.length_cons, ih]
    push_cast
    ring

theorem list_sum_div (l : List ℚ) (c : ℚ) :
    (l.map fun x => x / c).sum = l.sum / c := by
  induction l with
  | nil => simp
  | cons a as ih => simp [ih, add_div]

theorem selectRow_sanitize (cols excl : List String) :
    ∀ row : List Fval,
      selectRow cols excl (row.map fun v => Fval.num (nanToNum v)) =
        selectRow cols excl row := by
  intro row
  unfold selectRow
  rw [List.zip_map_right, List.filterMap_map]
  congr 1

/-- Claim C8: `cluster_strategies` standardizes each feature column to zero
mean and unit variance (in exact arithmetic: the centered column sums to
zero and the standardized squares sum to the row count), maps zero-variance
columns to all zeros, replaces every non-finite value by zero before
standardization (sanitizing the matrix never changes the result), and emits
one integer label per row with `-1` exactly for the points of no dense
region. -/
theorem c8_standardization_and_labels (t : FTable) (eps : ℚ) (minS : Nat)
    (hcols : t.cols ≠ []) (hrows : t.rows ≠ [])
    (hfeat : t.cols.filter (fun c => c ∉ defaultExcludeCols) ≠ []) :
    (cluster_strategies t eps minS none).length = t.rows.length ∧
    (∀ X, X = t.rows.map (selectRow t.cols defaultExcludeCols) →
      (∀ j, (X.map fun r => r.getD j 0 - colMean X j).sum = 0) ∧
      (∀ j, colVar X j = 0 → ∀ r ∈ X, r.getD j 0 - colMean X j = 0) ∧
      (∀ j, colVar X j ≠ 0 →
        (X.map fun r => (r.getD j 0 - colMean X j) ^ 2 / colVar X j).sum =
          (X.length : ℚ))) ∧
    (cluster_strategies
        ⟨t.cols, t.rows.map fun r => r.map fun v => Fval.num (nanToNum v)⟩
        eps minS none =
      cluster_strategies t eps minS none) ∧
    (∀ i, i < t.rows.length →
      ((cluster_strategies t eps minS none).getD i 0 = -1 ↔
        ¬ inDenseRegion (t.rows.map (selectRow t.cols defaultExcludeCols)).length
          (sqDist (t.rows.map (selectRow t.cols defaultExcludeCols))
            (t.cols.filter fun c => c ∉ defaultExcludeCols).length)
          eps minS i)) := by
  have hne : ¬ (t.rows.isEmpty ∨ t.cols.isEmpty) := by
    simp [List.isEmpty_iff, hrows, hcols]
  have hfe : ¬ (t.cols.filter fun c => c ∉ defaultExcludeCols).isEmpty = true := by
    simp only [List.isEmpty_iff]
    exact hfeat
  have hcs : cluster_strategies t eps minS none =
      dbscanLabels (t.rows.map (selectRow t.cols defaultExcludeCols)).length
        (sqDist (t.rows.map (selectRow t.cols defaultExcludeCols))
          (t.cols.filter fun c => c ∉ defaultExcludeCols).length) eps minS := by
    unfold cluster_strategies
    rw [if_neg hne]
    dsimp only [Option.getD]
    rw [if_neg hfe]
  have hXlen : (t.rows.map (selectRow t.cols defaultExcludeCols)).length =
      t.rows.length := List.length_map _ _
  have hnn : (t.rows.length : ℚ) ≠ 0 := by
    have : t.rows.length ≠ 0 := by
      intro h0
      exact hrows (List.length_eq_zero.mp h0)
    exact_mod_cast this
  refine ⟨?_, ?_, ?_, ?_⟩
  · rw [hcs]
    unfold dbscanLabels
    simp [hXlen]
  · intro X hX
    have hXn : (X.length : ℚ) ≠ 0 := by rw [hX, hXlen]; exact hnn
    refine ⟨?_, ?_, ?_⟩
    · intro j
      have : (X.map fun r => r.getD j 0 - colMean X j) =
          (X.map fun r => r.getD j 0).map fun x => x - colMean X j := by
        rw [List.map_map]; rfl
      rw [this, list_sum_sub_const, List.length_map]
      unfold colMean
      field_simp
    · intro j hv r hr
      unfold colVar at hv
      have hsum0 : (X.map fun r => (r.getD j 0 - colMean X j) ^ 2).sum = 0 := by
        rcases div_eq_zero_iff.mp hv with h | h
        · exact h
        · exact absurd h hXn
      have hz := sum_nonneg_all_zero _
        (by
          intro x hx
          rcases List.mem_map.mp hx with ⟨r', _, hr'⟩
          rw [← hr']
          positivity)
        hsum0 ((r.getD j 0 - colMean X j) ^ 2)
        (List.mem_map.mpr ⟨r, hr, rfl⟩)
      exact pow_eq_zero_iff (by norm_num) |>.mp hz
    · intro j hv
      have : (X.map fun r => (r.getD j 0 - colMean X j) ^ 2 / colVar X j) =
          (X.map fun r => (r.getD j 0 - colMean X j) ^ 2).map fun x => x / colVar X j := by
        rw [List.map_map]; rfl
      rw [this, list_sum_div]
      have hvar : (X.map fun r => (r.getD j 0 - colMean X j) ^ 2).sum =
          colVar X j * (X.length : ℚ) := by
        unfold colVar
        field_simp
      rw [hvar]
      field_simp
  · have hsel : ∀ row : List Fval,
        selectRow t.cols defaultExcludeCols (row.map fun v => Fval.num (nanToNum v)) =
          selectRow t.cols defaultExcludeCols row :=
      selectRow_sanitize t.cols defaultExcludeCols
    have hne' : ¬ ((t.rows.map fun r => r.map fun v => Fval.num (nanToNum v)).isEmpty ∨
        t.cols.isEmpty) := by
      simp only [List.isEmpty_iff, List.map_eq_nil_iff]
      simp [hrows, hcols]
    have hX' : (t.rows.map fun r => r.map fun v => Fval.num (nanToNum v)).map
        (selectRow t.cols defaultExcludeCols) =
        t.rows.map (selectRow t.cols defaultExcludeCols) := by
      rw [List.map_map]
      exact List.map_congr_left fun r _ => hsel r
    unfold cluster_strategies
    rw [if_neg hne, if_neg hne']
    dsimp only [Option.getD]
    rw [if_neg hfe, if_neg hfe, hX']
  · intro i hi
    rw [hcs]
    unfold dbscanLabels
    have hi' : i < (t.rows.map (selectRow t.cols defaultExcludeCols)).length := by
      rw [hXlen]; exact hi
    have hlen2 : i < ((List.range
        (t.rows.map (selectRow t.cols defaultExcludeCols)).length).map fun i =>
        if inDenseRegion (t.rows.map (selectRow t.cols defaultExcludeCols)).length
            (sqDist (t.rows.map (selectRow t.cols defaultExcludeCols))
              (t.cols.filter fun c => c ∉ defaultExcludeCols).length) eps minS i then
          (clusterRep (t.rows.map (selectRow t.cols defaultExcludeCols)).length
            (sqDist (t.rows.map (selectRow t.cols defaultExcludeCols))
              (t.cols.filter fun c => c ∉ defaultExcludeCols).length) eps minS i : Int)
        else -1).length := by
      simpa using hi'
    rw [List.getD_eq_getElem _ _ hlen2, List.getElem_map, List.getElem_range]
    by_cases hdense : inDenseRegion
        (t.rows.map (selectRow t.cols defaultExcludeCols)).length
        (sqDist (t.rows.map (selectRow t.cols defaultExcludeCols))
          (t.cols.filter fun c => c ∉ defaultExcludeCols).length) eps minS i
    · rw [if_pos hdense]
      constructor
      · intro h
        exfalso
        omega
      · intro h
        exact absurd hdense h
    · rw [if_neg hdense]
      exact iff_of_true rfl hdense

/-- Claim C10: `cluster_strategies` on an empty feature table returns the
empty label array, and when no feature column survives the exclusion list it
returns the noise label `-1` for every row instead of failing. -/
theorem c10_degenerate_tables (t : FTable) (eps : ℚ) (minS : Nat)
    (excl? : Option (List String)) :
    (t.rows = [] → cluster_strategies t eps minS excl? = []) ∧
    (t.cols ≠ [] → t.rows ≠ [] →
      t.cols.filter (fun c => c ∉ excl?.getD defaultExcludeCols) = [] →
      cluster_strategies t eps minS excl? = List.replicate t.rows.length (-1)) := by
  constructor
  · intro h
    unfold cluster_strategies
    rw [if_pos]
    simp [h]
  · intro hcols hrows hfe
    unfold cluster_strategies
    rw [if_neg (by simp [List.isEmpty_iff, hrows, hcols])]
    dsimp only
    rw [if_pos (by rw [List.isEmpty_iff]; exact hfe)]

/-- Witness for C8 at a concrete 2×2 table (one identifier column, one
feature column containing a NaN): the label array has one entry per row. -/
theorem c8_standardization_and_labels_witness :
    (cluster_strategies ⟨["round_num", "f1"],
        [[Fval.num 0, Fval.num 1], [Fval.num 2, Fval.nan]]⟩ 1 2 none).length =
      ([[Fval.num 0, Fval.num 1], [Fval.num 2, Fval.nan]] : List (List Fval)).length :=
  (c8_standardization_and_labels
    ⟨["round_num", "f1"], [[Fval.num 0, Fval.num 1], [Fval.num 2, Fval.nan]]⟩
    1 2 (by decide) (by decide) (by decide)).1

/-- Witness for C10: a table whose two columns are both excluded yields `-1`
for each of its two rows, and the empty table yields the empty array. -/
theorem c10_degenerate_tables_witness :
    cluster_strategies ⟨["round_num", "won"],
        [[Fval.num 1, Fval.num 0], [Fval.num 2, Fval.num 1]]⟩ 1 2 none =
      List.replicate 2 (-1) ∧
    cluster_strategies ⟨["round_num", "won"], []⟩ 1 2 none = [] :=
  ⟨(c10_degenerate_tables ⟨["round_num", "won"],
      [[Fval.num 1, Fval.num 0], [Fval.num 2, Fval.num 1]]⟩ 1 2 none).2
      (by decide) (by decide) (by decide),
   (c10_degenerate_tables ⟨["round_num", "won"], []⟩ 1 2 none).1 rfl⟩

/-! ## Cluster merge-back (`src/strats/clustering.py:106-123`) -/

/-- `match_file`-cell equality as the pandas mask
`rounds_with_clusters['match_file'] == row['match_file']` evaluates it:
a missing value compares unequal to everything. -/
def mfEq : Option String → Option String → Bool
  | some a, some b => a == b
  | _, _ => false

/-- The merge-back step of `discover_strategies` (`clustering.py:106-123`).
`featRows` pairs each feature row with its cluster label
(`features_df['strategy_cluster'] = clusters`).  When both tables carry a
`match_file` column — pandas creates it on the feature table when any row
dictionary had the key, hence `featRows.any …`; `roundsHasMF` is
`'match_file' in rounds_with_clusters.columns` — the loop at lines 116-119
writes each feature row's label onto every round row matching the composite
`(round_num, match_file)` key, starting from the all-`pd.NA` column.
Otherwise the fallback at lines 121-123 builds a `round_num → label`
dictionary (`dict(zip(…))`, later keys overwriting earlier ones) and maps
it over the round numbers. -/
def mergeClusters (featRows : List (FeatRow × Int)) (rounds : List RoundRow)
    (roundsHasMF : Bool) : List (RoundRow × Option Int) :=
  if (featRows.any fun fr => fr.1.match_file.isSome) ∧ roundsHasMF then
    featRows.foldl
      (fun acc fr =>
        acc.map fun rc =>
          if rc.1.round_num == fr.1.round_num ∧ mfEq rc.1.match_file fr.1.match_file
          then (rc.1, some fr.2) else rc)
      (rounds.map fun r => (r, none))
  else
    rounds.map fun r =>
      (r, (featRows.reverse.find? fun fr => fr.1.round_num == r.round_num).map (·.2))

/-- Characterization of the composite-merge loop: after folding all feature
rows, each round row carries the label of the last feature row matching its
composite key, or its initial label when none matches. -/
theorem mergeClusters_fold_char (featRows : List (FeatRow × Int)) :
    ∀ acc : List (RoundRow × Option Int),
      featRows.foldl
        (fun acc fr =>
          acc.map fun rc =>
            if rc.1.round_num == fr.1.round_num ∧ mfEq rc.1.match_file fr.1.match_file
            then (rc.1, some fr.2) else rc)
        acc =
      acc.map fun rc =>
        match featRows.reverse.find? fun fr =>
            rc.1.round_num == fr.1.round_num ∧ mfEq rc.1.match_file fr.1.match_file with
        | some fr => (rc.1, some fr.2)
        | none => rc := by
  induction featRows with
  | nil =>
    intro acc
    simp
  | cons f fs ih =>
    intro acc
    rw [List.foldl_cons, ih, List.map_map]
    refine List.map_congr_left fun rc _ => ?_
    by_cases hf : (rc.1.round_num == f.1.round_num ∧ mfEq rc.1.match_file f.1.match_file :
        Prop)
    · simp only [Function.comp_apply, if_pos hf]
      rw [List.reverse_cons, List.find?_append]
      cases hfind : fs.reverse.find? fun fr =>
          rc.1.round_num == fr.1.round_num ∧ mfEq rc.1.match_file fr.1.match_file with
      | some fr => simp [hfind]
      | none =>
        simp only [hfind, Option.none_orElse]
        have hb2 : (decide (rc.1.round_num = f.1.round_num) &&
            mfEq rc.1.match_file f.1.match_file) = true := by
          rw [Bool.and_eq_true]
          exact ⟨by simpa using hf.1, hf.2⟩
        simp [List.find?, hb2]
    · simp only [Function.comp_apply, if_neg hf]
      rw [List.reverse_cons, List.find?_append]
      cases hfind : fs.reverse.find? fun fr =>
          rc.1.round_num == fr.1.round_num ∧ mfEq rc.1.match_file fr.1.match_file with
      | some fr => simp [hfind]
      | none =>
        simp only [hfind, Option.none_orElse]
        have hb2 : (decide (rc.1.round_num = f.1.round_num) &&
            mfEq rc.1.match_file f.1.match_file) = false := by
          by_contra hb
          simp only [Bool.not_eq_false, Bool.and_eq_true] at hb
          exact hf ⟨by simpa using hb.1, hb.2⟩
        simp [List.find?, hb2]

/-- Claim C1: when both the feature table and the round table carry the
`match_file` column (always the case as soon as more than one match is
present — the tables distinguish matches through that column), the merge-back
of `discover_strategies` attaches labels by the composite
`(match_file, round_num)` key: every round row receives exactly the label of
the feature row bearing its own composite key (`pd.NA` when none exists), so
two matches sharing a round number keep independent labels.  The
`round_num`-only dictionary is used only by the fallback branch of
`mergeClusters`, taken when a table lacks the `match_file` column (the
single-demo case). -/
theorem c1_merge_back_composite_key (featRows : List (FeatRow × Int))
    (rounds : List RoundRow)
    (hfm : featRows.any fun fr => fr.1.match_file.isSome) :
    mergeClusters featRows rounds true =
      rounds.map fun r =>
        (r, (featRows.reverse.find? fun fr =>
              r.round_num == fr.1.round_num ∧ mfEq r.match_file fr.1.match_file).map
          (·.2)) := by
  unfold mergeClusters
  rw [if_pos ⟨hfm, rfl⟩, mergeClusters_fold_char, List.map_map]
  refine List.map_congr_left fun r _ => ?_
  simp only [Function.comp_apply]
  cases hfind : featRows.reverse.find? fun fr =>
      r.round_num == fr.1.round_num ∧ mfEq r.match_file fr.1.match_file with
  | some fr => simp [hfind]
  | none => simp [hfind]

/-- Feature rows of two matches sharing `round_num = 3`, with distinct
cluster labels. -/
def c1Feats : List (FeatRow × Int) :=
  [(⟨3, some "m1.dem", []⟩, 0), (⟨3, some "m2.dem", []⟩, 1)]

/-- The two `(match_file, 3)` round rows. -/
def c1Rounds : List RoundRow :=
  [⟨3, "T", "not_planted", none, some "m1.dem"⟩,
   ⟨3, "CT", "not_planted", none, some "m2.dem"⟩]

/-- Witness for C1: with two matches both containing round 3, each
`(match_file, 3)` row receives its own independent label — labels 0 and 1
are never conflated. -/
theorem c1_merge_back_composite_key_witness :
    mergeClusters c1Feats c1Rounds true =
      (c1Rounds.map fun r =>
        (r, (c1Feats.reverse.find? fun fr =>
              r.round_num == fr.1.round_num ∧ mfEq r.match_file fr.1.match_file).map
          (·.2))) ∧
    mergeClusters c1Feats c1Rounds true =
      [(⟨3, "T", "not_planted", none, some "m1.dem"⟩, some 0),
       (⟨3, "CT", "not_planted", none, some "m2.dem"⟩, some 1)] :=
  ⟨c1_merge_back_composite_key c1Feats c1Rounds (by decide), by decide⟩

/-! ## Cluster analysis (`src/strats/analysis.py:13-105`) -/

/-- One row of the labeled round table `analyze_strategy_clusters` receives:
the fields it reads plus the `strategy_cluster` column attached by the
merge-back (`none` models `pd.NA` on rounds no feature row matched; on
pipeline inputs every analyzed row carries a label, and the embedding reads
only present labels where the source's comprehension sees only numeric
values). -/
structure LabeledRound where
  round_num : Nat
  winner : String
  bombsite : String
  side : Option String
  strategy_cluster : Option Int
deriving DecidableEq, Repr

/-- `value_counts()` of a string column: distinct values with their
multiplicities, ordered by descending count (stable on ties). -/
def valueCounts (l : List String) : List (String × Nat) :=
  (l.dedup.map fun s => (s, l.count s)).mergeSort fun a b => decide (b.2 ≤ a.2)

/-- Aggregate statistics of one report entry (`analysis.py:52-103`).  The
bombsite fields are empty and the `note` is set for the `Unclustered`
entry; `bombsite_primary = none` models the source's `'unknown'` default on
an empty count table. -/
structure ClusterStats where
  cluster_id : Int
  frequency : Nat
  percentage_of_rounds : ℚ
  wins : Nat
  losses : Nat
  win_rate : ℚ
  bombsite_primary : Option String
  bombsite_distribution : List (String × Nat × ℚ)
  round_numbers : List Nat
  note : Option String
deriving DecidableEq, Repr

/-- Win count of a group of rounds (`analysis.py:54-59`, `90-94`): rowwise
`side == winner` when the group carries side values (a missing side never
equals the winner), `winner == side` otherwise. -/
def winCount (rows : List LabeledRound) (side : String) : Nat :=
  if rows.any fun r => r.side.isSome then
    (rows.filter fun r => r.side == some r.winner).length
  else
    (rows.filter fun r => r.winner == side).length

/-- The per-cluster statistics (`analysis.py:52-85`). -/
def clusterStats (cid : Int) (cr side_rounds : List LabeledRound)
    (side : String) : ClusterStats :=
  let total := cr.length
  let wins := winCount cr side
  let bc := valueCounts (cr.map (·.bombsite))
  { cluster_id := cid
    frequency := total
    percentage_of_rounds := (total : ℚ) / (side_rounds.length : ℚ) * 100
    wins := wins
    losses := total - wins
    win_rate := if 0 < total then (wins : ℚ) / (total : ℚ) * 100 else 0
    bombsite_primary := (bc.head?).map (·.1)
    bombsite_distribution := bc.filterMap fun sc =>
      if sc.1 == "not_planted" then none
      else some (sc.1, sc.2, (sc.2 : ℚ) / (total : ℚ) * 100)
    round_numbers := cr.map (·.round_num)
    note := none }

/-- The `Unclustered` statistics (`analysis.py:87-103`). -/
def noiseStats (noise side_rounds : List LabeledRound) (side : String) :
    ClusterStats :=
  let wins := winCount noise side
  { cluster_id := -1
    frequency := noise.length
    percentage_of_rounds := (noise.length : ℚ) / (side_rounds.length : ℚ) * 100
    wins := wins
    losses := noise.length - wins
    win_rate := if 0 < noise.length then (wins : ℚ) / (noise.length : ℚ) * 100 else 0
    bombsite_primary := none
    bombsite_distribution := []
    round_numbers := []
    note := some "Rounds that did not match any discovered strategy pattern" }

/-- Result of `analyze_strategy_clusters`: the `{'error': …}` dictionary or
the report entries in insertion order. -/
inductive AnalysisResult
  | err (msg : String)
  | report (entries : List (String × ClusterStats))
deriving DecidableEq, Repr

/-- `analyze_strategy_clusters` (`analysis.py:13-105`): filter to the
analyzed side when the table carries side values (map-wide tables do not),
error out when no round remains, then report each discovered cluster in
ascending id order and the noise group last. -/
def analyze_strategy_clusters (rounds : List LabeledRound) (side : String) :
    AnalysisResult :=
  let side_rounds :=
    if rounds.any fun r => r.side.isSome then
      rounds.filter fun r => r.side == some side
    else rounds
  if side_rounds.isEmpty then .err ("No " ++ side ++ "-side rounds found")
  else
    let clusters : List Int :=
      (((side_rounds.filterMap (·.strategy_cluster)).filter fun c => c ≠ -1).dedup).mergeSort
        fun a b => decide (a ≤ b)
    let entries := clusters.filterMap fun cid =>
      let cr := side_rounds.filter fun r => r.strategy_cluster == some cid
      if cr.isEmpty then none
      else some ("Strategy_" ++ toString cid, clusterStats cid cr side_rounds side)
    let noise := side_rounds.filter fun r => r.strategy_cluster == some (-1)
    if noise.isEmpty then .report entries
    else .report (entries ++ [("Unclustered", noiseStats noise side_rounds side)])

/-! ### Theorems for claim C9 -/

/-- Claim C9: a requested side for which zero rounds exist yields the
explicit error result, never an empty success (both when the side column is
populated and on an empty table); and when every label of the analyzed
rounds is `-1` (zero rounds clustered), the report contains exactly the
`Unclustered` group and nothing else. -/
theorem c9_error_and_unclustered_only (rounds : List LabeledRound) (side : String) :
    ((rounds.any fun r => r.side.isSome) = true →
      (rounds.filter fun r => r.side == some side) = [] →
      analyze_strategy_clusters rounds side =
        .err ("No " ++ side ++ "-side rounds found")) ∧
    (rounds = [] →
      analyze_strategy_clusters rounds side =
        .err ("No " ++ side ++ "-side rounds found")) ∧
    (∀ sr : List LabeledRound,
      sr = (if rounds.any (fun r => r.side.isSome) then
              rounds.filter fun r => r.side == some side
            else rounds) →
      sr ≠ [] →
      (∀ r ∈ sr, r.strategy_cluster = some (-1)) →
      analyze_strategy_clusters rounds side =
        .report [("Unclustered", noiseStats sr sr side)]) := by
  refine ⟨?_, ?_, ?_⟩
  · intro hany hemp
    unfold analyze_strategy_clusters
    dsimp only
    rw [hany]
    simp [hemp]
  · intro h
    subst h
    simp [analyze_strategy_clusters]
  · intro sr hsr hne hall
    have hnoise : sr.filter (fun r => r.strategy_cluster == some (-1)) = sr :=
      List.filter_eq_self.mpr fun r hr => by simp [hall r hr]
    have hcl : (sr.filterMap (·.strategy_cluster)).filter (fun c => c ≠ -1) = [] := by
      rw [List.filter_eq_nil_iff]
      intro a ha
      rcases List.mem_filterMap.mp ha with ⟨r, hr, hra⟩
      rw [hall r hr] at hra
      have : a = -1 := by injection hra with h2; exact h2.symm
      simp [this]
    have hsrne : sr.isEmpty = false := by
      cases sr with
      | nil => exact absurd rfl hne
      | cons a as => rfl
    unfold analyze_strategy_clusters
    dsimp only
    rw [← hsr, hsrne]
    simp only [Bool.false_eq_true, if_false]
    rw [hcl]
    simp [hnoise, hsrne]

/-- Rounds of the wrong side only, for the C9 error witness. -/
def c9ErrRounds : List LabeledRound := [⟨1, "T", "not_planted", some "CT", some 0⟩]

/-- All-noise rounds for the C9 unclustered witness. -/
def c9NoiseRounds : List LabeledRound :=
  [⟨1, "T", "not_planted", none, some (-1)⟩,
   ⟨2, "CT", "not_planted", none, some (-1)⟩]

/-- Witness for C9: requesting side `T` on a table whose only round is
CT-attributed yields the error result; an all-noise table reports exactly
the `Unclustered` group. -/
theorem c9_error_and_unclustered_only_witness :
    analyze_strategy_clusters c9ErrRounds "T" = .err "No T-side rounds found" ∧
    analyze_strategy_clusters c9NoiseRounds "T" =
      .report [("Unclustered", noiseStats c9NoiseRounds c9NoiseRounds "T")] :=
  ⟨(c9_error_and_unclustered_only c9ErrRounds "T").1 (by decide) (by decide),
   (c9_error_and_unclustered_only c9NoiseRounds "T").2.2 c9NoiseRounds (by decide)
     (by decide) (by decide)⟩
